import Mathlib

/-!
Verification of the AthenaPK hydro driver excerpt.

Shallow embedding of the two source files:
  - src/eos/eos.hpp            (class EquationOfState)
  - src/hydro/hydro_driver.cpp (HydroDriver constructor, UpdateContainer helper,
                                HydroDriver::MakeTaskCollection)

C++ `Real` is modelled as the rationals.  Functions from the Parthenon runtime
that the two files call (ParameterInput checks, container Add and Get,
parthenon::Update::UpdateContainer, the task scheduler, the concrete
equation-of-state conversions) are not part of the excerpt; where a claim
depends on them they are modelled from the spec, and each such definition is
marked with a doc comment beginning `Modelled from the spec:`.
-/

set_option autoImplicit false

/-! ## String constants used by the driver -/

def baseName : String := "base"

def dudtName : String := "dUdt"

def allScope : String := "all"

def hydroBlockName : String := "hydro"

def eosKey : String := "eos"

def cflKey : String := "cfl"

def noName : String := ""

/-! ## Equation of state (src/eos/eos.hpp)

The class holds two private `Real` fields set by the constructor, with
two const getters; `ConservedToPrimitive` and `PrimitiveToConserved`
are pure virtual (their concrete implementations are not in the excerpt). -/

structure EquationOfState where
  pressure_floor_ : ℚ
  density_floor_ : ℚ

def EquationOfState.GetPressureFloor (eos : EquationOfState) : ℚ :=
  eos.pressure_floor_

def EquationOfState.GetDensityFloor (eos : EquationOfState) : ℚ :=
  eos.density_floor_

/-- A cell of the primitive/conserved field data relevant to the floor
contract: its density and its pressure. -/
structure Cell where
  density : ℚ
  pressure : ℚ

/-- A block's field data, indexed by 3-dimensional cell index. -/
abbrev GridData := Int × Int × Int → Cell

/-- Membership of a cell index in the half-open range
`[il,iu) × [jl,ju) × [kl,ku)`. -/
def inRange (il iu jl ju kl ku : Int) (p : Int × Int × Int) : Bool :=
  decide (il ≤ p.1) && decide (p.1 < iu) &&
  decide (jl ≤ p.2.1) && decide (p.2.1 < ju) &&
  decide (kl ≤ p.2.2) && decide (p.2.2 < ku)

/-- Modelled from the spec: the floor enforcement applied per cell by the
equation-of-state conversions (density raised to at least `density_floor`,
pressure to at least `pressure_floor`). -/
def applyFloors (eos : EquationOfState) (c : Cell) : Cell :=
  { density := max c.density eos.density_floor_
  , pressure := max c.pressure eos.pressure_floor_ }

/-- Modelled from the spec: a concrete implementation of the pure-virtual
`EquationOfState::ConservedToPrimitive` is not in src/ (only the declaration
is).  Per the contract, after conversion over the half-open range
`[il,iu) × [jl,ju) × [kl,ku)` every cell in range has density at least
`density_floor` and pressure at least `pressure_floor`; cells outside the
range are untouched; the physical change of representation is out of scope
and only the floor action is modelled.  The conversion works in place on the
container's storage, modelled by returning the updated field. -/
def ConservedToPrimitive (eos : EquationOfState) (il iu jl ju kl ku : Int)
    (f : GridData) : GridData :=
  fun p => if inRange il iu jl ju kl ku p then applyFloors eos (f p) else f p

/-- Modelled from the spec: a concrete implementation of the pure-virtual
`EquationOfState::PrimitiveToConserved` is not in src/; same floor contract
as `ConservedToPrimitive`. -/
def PrimitiveToConserved (eos : EquationOfState) (il iu jl ju kl ku : Int)
    (f : GridData) : GridData :=
  fun p => if inRange il iu jl ju kl ku p then applyFloors eos (f p) else f p

/-- The public operations of the class that take a container: both are
declared `const` in the source.  Each carries the index range it is invoked
over. -/
inductive EOSOp where
  | c2p (il iu jl ju kl ku : Int)
  | p2c (il iu jl ju kl ku : Int)

/-- One method call on an `EquationOfState` object paired with the container
it operates on: the method mutates only the container (the class has no
non-const member function and no setter). -/
def EquationOfState.step :
    EquationOfState × GridData → EOSOp → EquationOfState × GridData
  | (eos, f), EOSOp.c2p il iu jl ju kl ku =>
      (eos, ConservedToPrimitive eos il iu jl ju kl ku f)
  | (eos, f), EOSOp.p2c il iu jl ju kl ku =>
      (eos, PrimitiveToConserved eos il iu jl ju kl ku f)

/-- Modelled from the spec: one integrator stage's effect on a block's field
data — an arbitrary per-stage update (flux divergence and stage blend,
opaque here) followed by the Region-C derived-field fill, which reapplies the
equation-of-state conversion over the block's index range. -/
def runStages (eos : EquationOfState) (il iu jl ju kl ku : Int)
    (upd : Nat → GridData → GridData) : Nat → GridData → GridData
  | 0, f => f
  | Nat.succ n, f =>
      ConservedToPrimitive eos il iu jl ju kl ku
        (upd n (runStages eos il iu jl ju kl ku upd n f))

/-! ## Parameter input and the HydroDriver constructor
(src/hydro/hydro_driver.cpp lines 20-27) -/

/-- The parameter input, reduced to the set of (block, key) pairs present in
the input file. -/
abbrev ParameterInput := List (String × String)

def hasKey (pin : ParameterInput) (block key : String) : Bool :=
  pin.any (fun p => p.1 = block ∧ p.2 = key)

/-- Modelled from the spec: `ParameterInput::CheckRequired` (Parthenon, not
in src/) — absence of the required key is a fatal configuration error at
construction. -/
def CheckRequired (pin : ParameterInput) (block key : String) :
    Except String Unit :=
  if hasKey pin block key then Except.ok () else
    Except.error (String.append block key)

/-- Modelled from the spec: `ParameterInput::CheckDesired` (Parthenon, not in
src/) — absence of the advisory key produces only a warning and execution
continues. -/
def CheckDesired (pin : ParameterInput) (block key : String) : List String :=
  if hasKey pin block key then [] else
    [String.append block key]

/-- The observable result of constructing a `HydroDriver`: the warnings
emitted by the advisory checks. -/
structure HydroDriver where
  warnings : List String

/-- The `HydroDriver` constructor (src/hydro/hydro_driver.cpp lines 20-27):
it calls `CheckRequired("hydro", "eos")` — fatal if missing — and then
`CheckDesired("hydro", "cfl")` — warning only. -/
def HydroDriver.construct (pin : ParameterInput) : Except String HydroDriver :=
  match CheckRequired pin hydroBlockName eosKey with
  | Except.error e => Except.error e
  | Except.ok _ => Except.ok { warnings := CheckDesired pin hydroBlockName cflKey }

/-! ## Containers (the parthenon `Container`/`ContainerCollection` interface
used by the driver) -/

/-- A container's field data, flattened to one index. -/
abbrev ContData := Nat → ℚ

/-- A block's named container collection (`pmb->real_containers`). -/
abbrev Containers := List (String × ContData)

/-- Modelled from the spec: `ContainerCollection::Get(name)` — lookup by
name, `NotFound` (here `none`) if absent. -/
def getContainer : Containers → String → Option ContData
  | [], _ => none
  | p :: rest, name => if p.1 = name then some p.2 else getContainer rest name

/-- Modelled from the spec: `ContainerCollection::Add(name, src)` — creates a
new container by copying from an existing one; idempotent no-op if the name
already exists. -/
def addContainer (cs : Containers) (name : String) (src : ContData) : Containers :=
  match getContainer cs name with
  | some _ => cs
  | none => cs ++ [(name, src)]

/-- Replacement of a container's data in place (the effect of a task that
overwrites the named container). -/
def setContainer : Containers → String → ContData → Containers
  | [], name, c => [(name, c)]
  | p :: rest, name, c =>
      if p.1 = name then (name, c) :: rest else p :: setContainer rest name c

/-- A mesh block as the driver sees it: its named container collection. -/
structure MeshBlock where
  containers : Containers

/-! ## Integrator descriptor and task status -/

/-- The integrator descriptor: number of stages, per-stage blend
coefficients, current time-step size. -/
structure Integrator where
  nstages : Nat
  beta : List ℚ
  dt : ℚ

/-- GraphTask completion status (parthenon `TaskStatus`). -/
inductive TaskStatus where
  | complete
  | incomplete
  | fail
deriving DecidableEq

/-! ## The task graph data model

`MakeTaskCollection` returns a `TaskCollection`: an ordered sequence of
`TaskRegion`s, each a list of `TaskList`s, each an ordered list of tasks.
A task records the function it will run (with the container names and
arguments the driver passes) and its predecessor.  A `TaskID` returned by
`AddTask` is modelled from the spec as a reference to the task that created
it — position (region, lane, index) in the collection — with `none` for the
empty `TaskID none(0)`; dependencies are explicit predecessor references
captured when tasks are added and may cross lanes. -/

structure TaskRef where
  region : Nat
  lane : Nat
  idx : Nat
deriving DecidableEq

/-- The work item of a task, as recorded by the driver when it adds the
task: which function runs, on which containers. -/
inductive TaskFun where
  | startReceiving (container : String) (scope : String)
  | calculateFluxes (container : String) (stage : Nat)
  | calculateFluxesWScratch (container : String) (stage : Nat)
  | fluxDivergenceMesh (inName : String) (outName : String)
  | updateContainer (stage : Nat)
  | sendBoundaryBuffers (container : String)
  | receiveBoundaryBuffers (container : String)
  | setBoundaries (container : String)
  | clearBoundary (container : String) (scope : String)
  | applyBoundaryConditions (container : String)
  | fillDerived (container : String)
  | estimateTimestep (container : String)
deriving DecidableEq

structure GraphTask where
  dep : Option TaskRef
  fn : TaskFun
deriving DecidableEq

abbrev TaskList := List GraphTask

abbrev TaskRegion := List TaskList

abbrev TaskCollection := List TaskRegion

/-- Look a task up by its reference. -/
def getTask (tc : TaskCollection) (r : TaskRef) : Option GraphTask :=
  (tc.get? r.region).bind fun reg => (reg.get? r.lane).bind fun tl => tl.get? r.idx

/-! ## HydroDriver::MakeTaskCollection (src/hydro/hydro_driver.cpp 43-142)

The three regions are built exactly as the source builds them:

  - `async_region1` (Region A): `blocks.size()` task lists; per block,
    `start_recv` (StartReceiving on `stage_name[stage]`, scope all, dep
    none) then `advect_flux` (CalculateFluxes or CalculateFluxesWScratch on
    `stage_name[stage-1]`, dep none), the variant chosen by the package
    parameter `use_scratch`.
  - `single_tasklist_region` (Region B): one task list with `flux_div`,
    `update_container`, `send`, `recv`, `fill_from_bufs`, each depending on
    the previous.
  - `async_region2` (Region C): `blocks.size()` task lists; per block,
    `clear_comm_flags` (dep none), `set_bc` (dep the `fill_from_bufs`
    TaskID from Region B), `fill_derived` (dep `set_bc`), and — only when
    `stage == integrator->nstages` — `new_dt` (dep `fill_derived`,
    recording the estimated timestep of `stage_name[stage]` as the block's
    timestep). -/

def regionAList (stage : Nat) (stage_name : List String) (use_scratch : Bool) :
    TaskList :=
  [ { dep := none
    , fn := TaskFun.startReceiving (stage_name.getD stage noName) allScope }
  , { dep := none
    , fn :=
        if use_scratch then
          TaskFun.calculateFluxesWScratch (stage_name.getD (stage - 1) noName) stage
        else
          TaskFun.calculateFluxes (stage_name.getD (stage - 1) noName) stage } ]

def regionBList (stage : Nat) (stage_name : List String) : TaskList :=
  [ { dep := none
    , fn := TaskFun.fluxDivergenceMesh (stage_name.getD (stage - 1) noName) dudtName }
  , { dep := some { region := 1, lane := 0, idx := 0 }
    , fn := TaskFun.updateContainer stage }
  , { dep := some { region := 1, lane := 0, idx := 1 }
    , fn := TaskFun.sendBoundaryBuffers (stage_name.getD stage noName) }
  , { dep := some { region := 1, lane := 0, idx := 2 }
    , fn := TaskFun.receiveBoundaryBuffers (stage_name.getD stage noName) }
  , { dep := some { region := 1, lane := 0, idx := 3 }
    , fn := TaskFun.setBoundaries (stage_name.getD stage noName) } ]

def regionCList (stage : Nat) (stage_name : List String) (nstages : Nat)
    (i : Nat) : TaskList :=
  let sc1 := stage_name.getD stage noName
  let clear_comm_flags : GraphTask :=
    { dep := none, fn := TaskFun.clearBoundary sc1 allScope }
  let set_bc : GraphTask :=
    { dep := some { region := 1, lane := 0, idx := 4 }
    , fn := TaskFun.applyBoundaryConditions sc1 }
  let fill_derived : GraphTask :=
    { dep := some { region := 2, lane := i, idx := 1 }
    , fn := TaskFun.fillDerived sc1 }
  if stage = nstages then
    [ clear_comm_flags, set_bc, fill_derived
    , { dep := some { region := 2, lane := i, idx := 2 }
      , fn := TaskFun.estimateTimestep sc1 } ]
  else
    [ clear_comm_flags, set_bc, fill_derived ]

/-- The container creation the driver performs per block at the top of the
Region-A loop: when `stage == 1`, add `"dUdt"` and `stage_name[1]` …
`stage_name[nstages-1]` by copying from the base container. -/
def makeStageContainers (stage : Nat) (stage_name : List String)
    (integrator : Integrator) (pmb : MeshBlock) : MeshBlock :=
  if stage = 1 then
    let base := (getContainer pmb.containers baseName).getD (fun _ => 0)
    let cs := addContainer pmb.containers dudtName base
    let cs := (List.range' 1 (integrator.nstages - 1)).foldl
      (fun acc i => addContainer acc (stage_name.getD i noName) base) cs
    { containers := cs }
  else pmb

/-- `HydroDriver::MakeTaskCollection`, returning the built collection
together with the blocks after the stage-1 container creation. -/
def MakeTaskCollection (blocks : List MeshBlock) (stage : Nat)
    (stage_name : List String) (integrator : Integrator) (use_scratch : Bool) :
    TaskCollection × List MeshBlock :=
  let blocks1 := blocks.map (makeStageContainers stage stage_name integrator)
  let async_region1 : TaskRegion :=
    (List.range blocks.length).map fun _ => regionAList stage stage_name use_scratch
  let single_tasklist_region : TaskRegion := [regionBList stage stage_name]
  let async_region2 : TaskRegion :=
    (List.range blocks.length).map fun i =>
      regionCList stage stage_name integrator.nstages i
  ([async_region1, single_tasklist_region, async_region2], blocks1)

/-! ## The UpdateContainer helper task (src/hydro/hydro_driver.cpp 30-40) -/

/-- Modelled from the spec: `parthenon::Update::UpdateContainer` is not in
src/.  Per §4.5 step 3b it writes, for every block and every cell,
`out = in + coeff * dUdt` (a block whose input containers are absent is a
runtime fault in parthenon; it is modelled as left unchanged, and every
claim about the update assumes the containers are present). -/
def ParthenonUpdateContainer (blocks : List MeshBlock) (inName : String)
    (dudt : String) (coeff : ℚ) (outName : String) : List MeshBlock :=
  blocks.map fun b =>
    match getContainer b.containers inName, getContainer b.containers dudt with
    | some f, some g =>
        { containers :=
            setContainer b.containers outName (fun cell => f cell + coeff * g cell) }
    | _, _ => b

/-- The `UpdateContainer` helper task of hydro_driver.cpp: reads
`beta = integrator->beta[stage-1]` and `dt = integrator->dt`, invokes
`parthenon::Update::UpdateContainer(blocks, stage_name[stage-1], "dUdt",
beta*dt, stage_name[stage])`, and returns `TaskStatus::complete`. -/
def UpdateContainer (blocks : List MeshBlock) (stage : Nat)
    (stage_name : List String) (integrator : Integrator) :
    List MeshBlock × TaskStatus :=
  let beta := integrator.beta.getD (stage - 1) 0
  let dt := integrator.dt
  ( ParthenonUpdateContainer blocks (stage_name.getD (stage - 1) noName) dudtName
      (beta * dt) (stage_name.getD stage noName)
  , TaskStatus.complete )

/-! ## The task scheduler/executor (spec sections 3, 4.6, 5)

The executor is the Parthenon runtime, not in src/; its semantics are
modelled from the spec: a task becomes ready when every task of every
earlier region is complete (region barrier) and its predecessor, if any, is
complete; the executor repeatedly runs any ready task.  An execution trace
is the sequence of tasks in completion order. -/

/-- The references of every task of region `r` of the collection. -/
def regionRefs (tc : TaskCollection) (r : Nat) : List TaskRef :=
  (List.range (tc.getD r []).length).flatMap fun lane =>
    (List.range ((tc.getD r []).getD lane []).length).map fun idx =>
      { region := r, lane := lane, idx := idx }

/-- Modelled from the spec: the region barrier — every task of every region
before region `j` is already done. -/
def prevRegionsDone (tc : TaskCollection) (j : Nat) (done : List TaskRef) :
    Bool :=
  (List.range j).all fun k => (regionRefs tc k).all fun r => decide (r ∈ done)

/-- Modelled from the spec: readiness of a task — it exists, has not run
yet, its region's barrier is satisfied, and its predecessor (if any) is
done. -/
def ready (tc : TaskCollection) (done : List TaskRef) (r : TaskRef) : Bool :=
  (getTask tc r).isSome && !(decide (r ∈ done)) &&
  prevRegionsDone tc r.region done &&
  (match getTask tc r with
   | some t =>
       match t.dep with
       | none => true
       | some d => decide (d ∈ done)
   | none => false)

/-- Modelled from the spec: validity of an execution trace continuing from
a set of already-completed tasks — each successive task must be ready when
it runs. -/
def validFrom (tc : TaskCollection) : List TaskRef → List TaskRef → Bool
  | _, [] => true
  | done, r :: rest => ready tc done r && validFrom tc (r :: done) rest

/-- Modelled from the spec: a valid execution trace of the collection from
the start of the stage. -/
def validTrace (tc : TaskCollection) (tr : List TaskRef) : Bool :=
  validFrom tc [] tr

/-! ## Remaining definitions used by the statements -/

/-- The task collection the driver hands to the executor. -/
def hydroTC (blocks : List MeshBlock) (stage : Nat) (stage_name : List String)
    (integrator : Integrator) (use_scratch : Bool) : TaskCollection :=
  (MakeTaskCollection blocks stage stage_name integrator use_scratch).1

/-- The floor contract on one cell: density at least the density floor and
pressure at least the pressure floor. -/
def floorsSatisfied (eos : EquationOfState) (c : Cell) : Prop :=
  eos.GetDensityFloor ≤ c.density ∧ eos.GetPressureFloor ≤ c.pressure

/-- Stage container names used in concrete instantiations. -/
def stage1Name : String := "1"

def stage2Name : String := "2"

/-! ## Helper lemmas: containers -/

theorem getContainer_append {cs ds : Containers} {m : String} :
    getContainer (cs ++ ds) m =
      match getContainer cs m with
      | some v => some v
      | none => getContainer ds m := by
  induction cs with
  | nil => simp [getContainer]
  | cons p rest ih =>
    by_cases h : p.1 = m
    · simp [getContainer, h]
    · simp [getContainer, h, ih]

theorem getContainer_add_same {cs : Containers} {n : String} {g : ContData}
    (h : getContainer cs n = none) :
    getContainer (addContainer cs n g) n = some g := by
  simp [addContainer, h, getContainer_append, getContainer]

theorem getContainer_add_of_some {cs : Containers} {n : String} {g : ContData}
    {m : String} {v : ContData} (h : getContainer cs m = some v) :
    getContainer (addContainer cs n g) m = some v := by
  unfold addContainer
  cases hn : getContainer cs n with
  | some w => exact h
  | none => simp [getContainer_append, h]

theorem getContainer_add_other {cs : Containers} {n : String} {g : ContData}
    {m : String} (h : m ≠ n) :
    getContainer (addContainer cs n g) m = getContainer cs m := by
  unfold addContainer
  cases hn : getContainer cs n with
  | some w => rfl
  | none =>
    rw [getContainer_append]
    cases hm : getContainer cs m with
    | some v => rfl
    | none =>
      simp only [getContainer]
      rw [if_neg (fun hh => h (Eq.symm hh))]

theorem getContainer_set_same (cs : Containers) (n : String) (c : ContData) :
    getContainer (setContainer cs n c) n = some c := by
  induction cs with
  | nil => simp [setContainer, getContainer]
  | cons p rest ih =>
    by_cases h : p.1 = n
    · simp [setContainer, h, getContainer]
    · simp [setContainer, h, getContainer, ih]

theorem getContainer_foldl_add_of_some {g : ContData} {names : List String} :
    ∀ {cs : Containers} {m : String} {v : ContData}, getContainer cs m = some v →
    getContainer (names.foldl (fun a n => addContainer a n g) cs) m = some v := by
  induction names with
  | nil => intro cs m v h; exact h
  | cons x xs ih =>
    intro cs m v h
    exact ih (getContainer_add_of_some h)

theorem getContainer_foldl_add_mem {g : ContData} :
    ∀ (names : List String) (cs : Containers),
    (∀ n ∈ names, getContainer cs n = none) → names.Nodup →
    ∀ n ∈ names,
      getContainer (names.foldl (fun a n => addContainer a n g) cs) n = some g := by
  intro names
  induction names with
  | nil => intro cs _ _ n hn; simp at hn
  | cons x xs ih =>
    intro cs hfresh hnodup n hn
    simp only [List.foldl_cons]
    rcases List.mem_cons.mp hn with rfl | hxs
    · exact getContainer_foldl_add_of_some
        (getContainer_add_same (hfresh n (List.mem_cons_self n xs)))
    · apply ih (addContainer cs x g) ?_ (List.nodup_cons.mp hnodup).2 n hxs
      intro q hq
      have hne : q ≠ x := by
        rintro rfl
        exact (List.nodup_cons.mp hnodup).1 hq
      rw [getContainer_add_other hne]
      exact hfresh q (List.mem_cons_of_mem _ hq)

/-! ## Helper lemmas: scheduler barrier -/

theorem ready_barrier {tc : TaskCollection} {done : List TaskRef} {r : TaskRef}
    (h : ready tc done r = true) :
    prevRegionsDone tc r.region done = true := by
  simp only [ready, Bool.and_eq_true] at h
  tauto

theorem validFrom_prevRegionsDone {tc : TaskCollection} :
    ∀ (pre done : List TaskRef) (r : TaskRef) (post : List TaskRef),
    validFrom tc done (pre ++ r :: post) = true →
    prevRegionsDone tc r.region (pre.reverse ++ done) = true := by
  intro pre
  induction pre with
  | nil =>
    intro done r post h
    simp only [List.nil_append, validFrom, Bool.and_eq_true] at h
    simpa using ready_barrier h.1
  | cons x xs ih =>
    intro done r post h
    simp only [List.cons_append, validFrom, Bool.and_eq_true] at h
    have hx := ih (x :: done) r post h.2
    simpa [List.reverse_cons, List.append_assoc] using hx

theorem prevRegionsDone_mem {tc : TaskCollection} {j : Nat}
    {done : List TaskRef} {k : Nat} {q : TaskRef}
    (h : prevRegionsDone tc j done = true) (hk : k < j)
    (hq : q ∈ regionRefs tc k) : q ∈ done := by
  simp only [prevRegionsDone, List.all_eq_true, List.mem_range,
    decide_eq_true_eq] at h
  exact h k hk q hq

theorem validTrace_barrier {tc : TaskCollection} {pre : List TaskRef}
    {r : TaskRef} {post : List TaskRef}
    (h : validTrace tc (pre ++ r :: post) = true)
    {k : Nat} (hk : k < r.region) :
    ∀ q ∈ regionRefs tc k, q ∈ pre := by
  intro q hq
  have hb := validFrom_prevRegionsDone pre [] r post h
  have hm := prevRegionsDone_mem hb hk hq
  simpa [List.mem_reverse] using hm

theorem mem_regionRefs {tc : TaskCollection} {r lane idx : Nat}
    (h1 : lane < (tc.getD r []).length)
    (h2 : idx < ((tc.getD r []).getD lane []).length) :
    TaskRef.mk r lane idx ∈ regionRefs tc r := by
  simp only [regionRefs, List.mem_flatMap, List.mem_map, List.mem_range]
  exact ⟨lane, h1, idx, h2, rfl⟩

/-! ## Helper lemmas: the built task collection -/

theorem hydroTC_eq (blocks : List MeshBlock) (stage : Nat)
    (stage_name : List String) (integrator : Integrator) (use_scratch : Bool) :
    hydroTC blocks stage stage_name integrator use_scratch =
      [ (List.range blocks.length).map fun _ => regionAList stage stage_name use_scratch
      , [regionBList stage stage_name]
      , (List.range blocks.length).map fun i =>
          regionCList stage stage_name integrator.nstages i ] := rfl

theorem hydroTC_laneA {blocks : List MeshBlock} {stage : Nat}
    {stage_name : List String} {integrator : Integrator} {use_scratch : Bool}
    {i : Nat} (hi : i < blocks.length) :
    ((hydroTC blocks stage stage_name integrator use_scratch).getD 0 []).getD i []
      = regionAList stage stage_name use_scratch := by
  rw [hydroTC_eq]
  simp [List.getD_eq_getElem?_getD, List.getElem?_range hi,
    List.getElem?_replicate_of_lt hi]

theorem hydroTC_laneC {blocks : List MeshBlock} {stage : Nat}
    {stage_name : List String} {integrator : Integrator} {use_scratch : Bool}
    {i : Nat} (hi : i < blocks.length) :
    ((hydroTC blocks stage stage_name integrator use_scratch).getD 2 []).getD i []
      = regionCList stage stage_name integrator.nstages i := by
  rw [hydroTC_eq]
  simp [List.getD_eq_getElem?_getD, List.getElem?_range hi]

/-! ## Claim theorems: equation of state and constructor -/

/-- C7: after any ConservedToPrimitive or PrimitiveToConserved conversion
over the half-open range, every cell in range satisfies density at least
`density_floor` and pressure at least `pressure_floor`; consequently running
`nstages` stages (each ending in the derived-field conversion) from a base
state yields a final state satisfying the floor bounds in every in-range
cell. -/
theorem C7_eos_floor_contract (eos : EquationOfState) (il iu jl ju kl ku : Int)
    (p : Int × Int × Int) (hp : inRange il iu jl ju kl ku p = true) :
    (∀ f : GridData,
      floorsSatisfied eos (ConservedToPrimitive eos il iu jl ju kl ku f p)) ∧
    (∀ f : GridData,
      floorsSatisfied eos (PrimitiveToConserved eos il iu jl ju kl ku f p)) ∧
    (∀ (upd : Nat → GridData → GridData) (nstages : Nat) (base : GridData),
      1 ≤ nstages →
      floorsSatisfied eos (runStages eos il iu jl ju kl ku upd nstages base p)) := by
  have hc : ∀ f : GridData,
      floorsSatisfied eos (ConservedToPrimitive eos il iu jl ju kl ku f p) := by
    intro f
    simp [ConservedToPrimitive, hp, applyFloors, floorsSatisfied,
      EquationOfState.GetDensityFloor, EquationOfState.GetPressureFloor]
  refine ⟨hc, ?_, ?_⟩
  · intro f
    simpa [PrimitiveToConserved, ConservedToPrimitive] using hc f
  · intro upd nstages base h1
    obtain ⟨m, rfl⟩ : ∃ m, nstages = m + 1 := ⟨nstages - 1, by omega⟩
    exact hc (upd m (runStages eos il iu jl ju kl ku upd m base))

theorem C7_eos_floor_contract_witness :
    inRange 0 2 0 2 0 2 (0, 0, 0) = true ∧
    ((∀ f : GridData,
      floorsSatisfied (EquationOfState.mk (1/10) (1/2))
        (ConservedToPrimitive (EquationOfState.mk (1/10) (1/2)) 0 2 0 2 0 2 f (0, 0, 0))) ∧
    (∀ f : GridData,
      floorsSatisfied (EquationOfState.mk (1/10) (1/2))
        (PrimitiveToConserved (EquationOfState.mk (1/10) (1/2)) 0 2 0 2 0 2 f (0, 0, 0))) ∧
    (∀ (upd : Nat → GridData → GridData) (nstages : Nat) (base : GridData),
      1 ≤ nstages →
      floorsSatisfied (EquationOfState.mk (1/10) (1/2))
        (runStages (EquationOfState.mk (1/10) (1/2)) 0 2 0 2 0 2 upd nstages base (0, 0, 0)))) :=
  ⟨by decide,
   C7_eos_floor_contract (EquationOfState.mk (1/10) (1/2)) 0 2 0 2 0 2 (0, 0, 0) (by decide)⟩

/-- C8: constructing the HydroDriver without the required key
(hydro, eos) is a fatal configuration error; with the required key present
and the advisory key (hydro, cfl) absent, construction succeeds and only a
warning is produced. -/
theorem C8_constructor_checks (pin : ParameterInput) :
    (hasKey pin hydroBlockName eosKey = false →
      ∃ e, HydroDriver.construct pin = Except.error e) ∧
    (hasKey pin hydroBlockName eosKey = true →
      ∃ d, HydroDriver.construct pin = Except.ok d ∧
        (hasKey pin hydroBlockName cflKey = false → d.warnings ≠ [])) := by
  constructor
  · intro h
    refine ⟨String.append hydroBlockName eosKey, ?_⟩
    simp [HydroDriver.construct, CheckRequired, h]
  · intro h
    refine ⟨⟨CheckDesired pin hydroBlockName cflKey⟩, ?_, ?_⟩
    · simp [HydroDriver.construct, CheckRequired, h]
    · intro hc
      simp [CheckDesired, hc]

theorem C8_constructor_checks_witness :
    (∃ e, HydroDriver.construct [] = Except.error e) ∧
    (∃ d, HydroDriver.construct [(hydroBlockName, eosKey)] = Except.ok d ∧
      d.warnings ≠ []) := by
  constructor
  · exact (C8_constructor_checks []).1 (by decide)
  · obtain ⟨d, hd, hw⟩ :=
      (C8_constructor_checks [(hydroBlockName, eosKey)]).2 (by decide)
    exact ⟨d, hd, hw (by decide)⟩

/-- C9 counterexample: the class does not enforce non-negativity; an
enforcer constructed with pressure_floor -1 and density_floor -2 has both
getters negative, refuting the claim that every constructed enforcer has
non-negative floors. -/
theorem C9_counterexample :
    (EquationOfState.mk (-1) (-2)).GetPressureFloor < 0 ∧
    (EquationOfState.mk (-1) (-2)).GetDensityFloor < 0 := by
  constructor <;> decide

/-- C9 amended: the getters return exactly the configured scalars and the
class itself enforces nothing; when constructed with non-negative
pressure_floor and density_floor, both getters are non-negative. -/
theorem C9_nonneg_floors (p d : ℚ) (hp : 0 ≤ p) (hd : 0 ≤ d) :
    0 ≤ (EquationOfState.mk p d).GetPressureFloor ∧
    0 ≤ (EquationOfState.mk p d).GetDensityFloor :=
  ⟨hp, hd⟩

theorem C9_nonneg_floors_witness :
    0 ≤ (EquationOfState.mk 0 (1/2)).GetPressureFloor ∧
    0 ≤ (EquationOfState.mk 0 (1/2)).GetDensityFloor :=
  C9_nonneg_floors 0 (1/2) (by norm_num) (by norm_num)

/-- C10: GetPressureFloor and GetDensityFloor return exactly the
constructor arguments, and no operation of the class modifies the stored
floors after construction: applying any sequence of the class's conversion
calls leaves the object itself unchanged. -/
theorem C10_getters_immutable (p d : ℚ) (ops : List EOSOp) (f : GridData) :
    (EquationOfState.mk p d).GetPressureFloor = p ∧
    (EquationOfState.mk p d).GetDensityFloor = d ∧
    (ops.foldl EquationOfState.step (EquationOfState.mk p d, f)).1 =
      EquationOfState.mk p d := by
  refine ⟨rfl, rfl, ?_⟩
  have key : ∀ (ops : List EOSOp) (s : EquationOfState × GridData),
      (ops.foldl EquationOfState.step s).1 = s.1 := by
    intro ops
    induction ops with
    | nil => intro s; rfl
    | cons op rest ih =>
      intro s
      rw [List.foldl_cons, ih]
      cases s with
      | mk e g => cases op <;> rfl
  exact key ops _

/-! ## Claim theorems: the task collection -/

/-- C1: MakeTaskCollection builds exactly three regions in order — one task
list per block (Region A), a single task list (Region B), one task list per
block (Region C) — and, under the executor's barrier semantics, in any valid
execution trace no task of region k+1 runs before every task in every task
list of region k has completed; in particular no Region-B task (including
the mesh-wide flux divergence) runs before all Region-A tasks complete. -/
theorem C1_three_regions_barrier (blocks : List MeshBlock) (stage : Nat)
    (stage_name : List String) (integrator : Integrator) (use_scratch : Bool)
    (pre : List TaskRef) (r : TaskRef) (post : List TaskRef)
    (h : validTrace (hydroTC blocks stage stage_name integrator use_scratch)
          (pre ++ r :: post) = true)
    (k : Nat) (hk : k < r.region) :
    (hydroTC blocks stage stage_name integrator use_scratch).length = 3 ∧
    ((hydroTC blocks stage stage_name integrator use_scratch).getD 0 []).length
      = blocks.length ∧
    ((hydroTC blocks stage stage_name integrator use_scratch).getD 1 []).length
      = 1 ∧
    ((hydroTC blocks stage stage_name integrator use_scratch).getD 2 []).length
      = blocks.length ∧
    ∀ q ∈ regionRefs (hydroTC blocks stage stage_name integrator use_scratch) k,
      q ∈ pre := by
  refine ⟨rfl, ?_, rfl, ?_, ?_⟩
  · rw [hydroTC_eq]; simp [List.getD_eq_getElem?_getD]
  · rw [hydroTC_eq]; simp [List.getD_eq_getElem?_getD]
  · exact validTrace_barrier h hk

theorem C1_three_regions_barrier_witness :
    validTrace (hydroTC [MeshBlock.mk []] 1 [] (Integrator.mk 2 [] 0) false)
      ([TaskRef.mk 0 0 0, TaskRef.mk 0 0 1] ++ TaskRef.mk 1 0 0 :: []) = true ∧
    ((hydroTC [MeshBlock.mk []] 1 [] (Integrator.mk 2 [] 0) false).length = 3 ∧
     ((hydroTC [MeshBlock.mk []] 1 [] (Integrator.mk 2 [] 0) false).getD 0 []).length = 1 ∧
     ((hydroTC [MeshBlock.mk []] 1 [] (Integrator.mk 2 [] 0) false).getD 1 []).length = 1 ∧
     ((hydroTC [MeshBlock.mk []] 1 [] (Integrator.mk 2 [] 0) false).getD 2 []).length = 1 ∧
     ∀ q ∈ regionRefs (hydroTC [MeshBlock.mk []] 1 [] (Integrator.mk 2 [] 0) false) 0,
       q ∈ [TaskRef.mk 0 0 0, TaskRef.mk 0 0 1]) :=
  ⟨by decide,
   C1_three_regions_barrier [MeshBlock.mk []] 1 [] (Integrator.mk 2 [] 0) false
     [TaskRef.mk 0 0 0, TaskRef.mk 0 0 1] (TaskRef.mk 1 0 0) [] (by decide) 0
     (by decide)⟩

/-- C3: Region B is one task list whose tasks, in order, are the mesh-wide
flux divergence (reading stage_name[stage-1], writing dUdt, no dependency),
the stage update depending on it, then SendBoundaryBuffers,
ReceiveBoundaryBuffers and SetBoundaries for the stage_name[stage] container,
each depending on the previous task. -/
theorem C3_regionB_chain (blocks : List MeshBlock) (stage : Nat)
    (stage_name : List String) (integrator : Integrator) (use_scratch : Bool) :
    (hydroTC blocks stage stage_name integrator use_scratch).getD 1 [] =
      [ [ GraphTask.mk none
            (TaskFun.fluxDivergenceMesh (stage_name.getD (stage - 1) noName) dudtName)
        , GraphTask.mk (some (TaskRef.mk 1 0 0)) (TaskFun.updateContainer stage)
        , GraphTask.mk (some (TaskRef.mk 1 0 1))
            (TaskFun.sendBoundaryBuffers (stage_name.getD stage noName))
        , GraphTask.mk (some (TaskRef.mk 1 0 2))
            (TaskFun.receiveBoundaryBuffers (stage_name.getD stage noName))
        , GraphTask.mk (some (TaskRef.mk 1 0 3))
            (TaskFun.setBoundaries (stage_name.getD stage noName)) ] ] := rfl

/-- The head of a block's Region-C task list is the ClearBoundary task. -/
theorem regionCList_get0 (stage : Nat) (stage_name : List String)
    (nstages : Nat) (i : Nat) :
    (regionCList stage stage_name nstages i)[0]? =
      some (GraphTask.mk none
        (TaskFun.clearBoundary (stage_name.getD stage noName) allScope)) := by
  simp only [regionCList]
  split <;> rfl

/-- C4 counterexample: in the collection built for one block at stage 1 the
ClearBoundary task of Region C carries no dependency at all (TaskID none);
in particular it does not depend on the StartReceiving task of the same
scope, which sits at position (region 0, lane 0, index 0). -/
theorem C4_counterexample :
    getTask (hydroTC [MeshBlock.mk []] 1 [] (Integrator.mk 2 [] 0) false)
        (TaskRef.mk 2 0 0) =
      some (GraphTask.mk none (TaskFun.clearBoundary noName allScope)) ∧
    getTask (hydroTC [MeshBlock.mk []] 1 [] (Integrator.mk 2 [] 0) false)
        (TaskRef.mk 0 0 0) =
      some (GraphTask.mk none (TaskFun.startReceiving noName allScope)) ∧
    Option.map GraphTask.dep
        (getTask (hydroTC [MeshBlock.mk []] 1 [] (Integrator.mk 2 [] 0) false)
          (TaskRef.mk 2 0 0)) ≠
      some (some (TaskRef.mk 0 0 0)) := by
  refine ⟨rfl, rfl, ?_⟩
  decide

/-- C4 corrected: the ClearBoundary task is added with dependency none, not
with a dependency on StartReceiving; it still never executes before the same
block's StartReceiving of the same scope within the stage, because it is
placed in Region C while StartReceiving is in Region A and the region
barrier orders them. -/
theorem C4_clear_after_start_receiving (blocks : List MeshBlock) (stage : Nat)
    (stage_name : List String) (integrator : Integrator) (use_scratch : Bool)
    (i : Nat) (hi : i < blocks.length) (pre post : List TaskRef)
    (h : validTrace (hydroTC blocks stage stage_name integrator use_scratch)
          (pre ++ TaskRef.mk 2 i 0 :: post) = true) :
    getTask (hydroTC blocks stage stage_name integrator use_scratch)
        (TaskRef.mk 2 i 0) =
      some (GraphTask.mk none
        (TaskFun.clearBoundary (stage_name.getD stage noName) allScope)) ∧
    getTask (hydroTC blocks stage stage_name integrator use_scratch)
        (TaskRef.mk 0 i 0) =
      some (GraphTask.mk none
        (TaskFun.startReceiving (stage_name.getD stage noName) allScope)) ∧
    TaskRef.mk 0 i 0 ∈ pre := by
  refine ⟨?_, ?_, ?_⟩
  · unfold getTask
    rw [hydroTC_eq]
    simp [List.getElem?_range hi, regionCList_get0]
  · unfold getTask
    rw [hydroTC_eq]
    simp [List.getElem?_replicate_of_lt hi, regionAList]
  · have hk0 : (0 : Nat) < (TaskRef.mk 2 i 0).region := by
      show (0 : Nat) < 2
      decide
    apply validTrace_barrier h hk0
    apply mem_regionRefs
    · rw [hydroTC_eq]
      simpa [List.getD_eq_getElem?_getD] using hi
    · rw [hydroTC_laneA hi]
      simp [regionAList]

/-- C6: a block's Region-C task list contains a timestep-estimation task if
and only if the stage index equals integrator->nstages; when present it is
the fourth task, depends on the derived-field fill task (the third task),
and records the estimated timestep of the fully updated stage-s container. -/
theorem C6_new_dt_iff_final_stage (blocks : List MeshBlock) (stage : Nat)
    (stage_name : List String) (integrator : Integrator) (use_scratch : Bool)
    (i : Nat) (hi : i < blocks.length) :
    ((∃ t ∈ ((hydroTC blocks stage stage_name integrator use_scratch).getD 2 []).getD i [],
        ∃ c, t.fn = TaskFun.estimateTimestep c) ↔ stage = integrator.nstages) ∧
    (stage = integrator.nstages →
      (((hydroTC blocks stage stage_name integrator use_scratch).getD 2 []).getD i [])[3]? =
        some (GraphTask.mk (some (TaskRef.mk 2 i 2))
          (TaskFun.estimateTimestep (stage_name.getD stage noName))) ∧
      (((hydroTC blocks stage stage_name integrator use_scratch).getD 2 []).getD i [])[2]? =
        some (GraphTask.mk (some (TaskRef.mk 2 i 1))
          (TaskFun.fillDerived (stage_name.getD stage noName)))) := by
  rw [hydroTC_laneC hi]
  constructor
  · constructor
    · rintro ⟨t, ht, c, hc⟩
      by_contra hne
      simp only [regionCList, if_neg hne, List.mem_cons, List.not_mem_nil, or_false] at ht
      rcases ht with rfl | rfl | rfl <;> simp at hc
    · intro hs
      refine ⟨GraphTask.mk (some (TaskRef.mk 2 i 2))
          (TaskFun.estimateTimestep (stage_name.getD stage noName)), ?_,
        stage_name.getD stage noName, rfl⟩
      simp [regionCList, if_pos hs]
  · intro hs
    constructor
    · simp [regionCList, if_pos hs]
    · simp [regionCList, if_pos hs]

theorem C6_new_dt_iff_final_stage_witness :
    ((∃ t ∈ ((hydroTC [MeshBlock.mk []] 2 [] (Integrator.mk 2 [] 0) false).getD 2 []).getD 0 [],
        ∃ c, t.fn = TaskFun.estimateTimestep c) ↔ 2 = (Integrator.mk 2 [] 0).nstages) ∧
    (2 = (Integrator.mk 2 [] 0).nstages →
      (((hydroTC [MeshBlock.mk []] 2 [] (Integrator.mk 2 [] 0) false).getD 2 []).getD 0 [])[3]? =
        some (GraphTask.mk (some (TaskRef.mk 2 0 2))
          (TaskFun.estimateTimestep (List.getD [] 2 noName))) ∧
      (((hydroTC [MeshBlock.mk []] 2 [] (Integrator.mk 2 [] 0) false).getD 2 []).getD 0 [])[2]? =
        some (GraphTask.mk (some (TaskRef.mk 2 0 1))
          (TaskFun.fillDerived (List.getD [] 2 noName)))) :=
  C6_new_dt_iff_final_stage [MeshBlock.mk []] 2 [] (Integrator.mk 2 [] 0) false 0
    (by decide)

/-! ## Claim theorems: stage update and stage-1 allocation -/

/-- C2: the stage-update task computes
stage_s = stage_{s-1} + beta[s-1]*dt*dUdt per cell: UpdateContainer invokes
the container update with blend coefficient integrator->beta[stage-1] times
integrator->dt, reading the stage_{s-1} container and dUdt and writing the
stage_s container, and reports complete. -/
theorem C2_stage_update (blocks : List MeshBlock) (stage : Nat)
    (stage_name : List String) (integrator : Integrator)
    (i : Nat) (b : MeshBlock) (f g : ContData) (beta : ℚ)
    (hb : blocks[i]? = some b)
    (hf : getContainer b.containers (stage_name.getD (stage - 1) noName) = some f)
    (hg : getContainer b.containers dudtName = some g)
    (hbeta : integrator.beta.get? (stage - 1) = some beta) :
    (UpdateContainer blocks stage stage_name integrator).2 = TaskStatus.complete ∧
    ∃ b', (UpdateContainer blocks stage stage_name integrator).1[i]? = some b' ∧
      getContainer b'.containers (stage_name.getD stage noName) =
        some (fun cell => f cell + beta * integrator.dt * g cell) := by
  refine ⟨rfl, ?_⟩
  have hbeta' : integrator.beta.getD (stage - 1) 0 = beta := by
    rw [List.getD_eq_getElem?_getD, ← List.get?_eq_getElem?, hbeta]
    rfl
  have h1 : (UpdateContainer blocks stage stage_name integrator).1[i]? =
      some (MeshBlock.mk (setContainer b.containers (stage_name.getD stage noName)
        (fun cell =>
          f cell + integrator.beta.getD (stage - 1) 0 * integrator.dt * g cell))) := by
    simp only [UpdateContainer, ParthenonUpdateContainer, List.getElem?_map, hb,
      Option.map_some']
    rw [hf, hg]
  rw [hbeta'] at h1
  exact ⟨_, h1, getContainer_set_same b.containers (stage_name.getD stage noName) _⟩

theorem C2_stage_update_witness :
    (UpdateContainer [MeshBlock.mk [(baseName, fun _ => 2), (dudtName, fun _ => 3)]]
        1 [baseName, stage1Name] (Integrator.mk 2 [1/2] (1/10))).2
      = TaskStatus.complete ∧
    ∃ b', (UpdateContainer [MeshBlock.mk [(baseName, fun _ => 2), (dudtName, fun _ => 3)]]
        1 [baseName, stage1Name] (Integrator.mk 2 [1/2] (1/10))).1[0]? = some b' ∧
      getContainer b'.containers (List.getD [baseName, stage1Name] 1 noName) =
        some (fun cell => (fun _ => (2 : ℚ)) cell +
          (1/2) * (Integrator.mk 2 [1/2] (1/10)).dt * (fun _ => (3 : ℚ)) cell) :=
  C2_stage_update [MeshBlock.mk [(baseName, fun _ => 2), (dudtName, fun _ => 3)]]
    1 [baseName, stage1Name] (Integrator.mk 2 [1/2] (1/10)) 0
    (MeshBlock.mk [(baseName, fun _ => 2), (dudtName, fun _ => 3)])
    (fun _ => 2) (fun _ => 3) (1/2) rfl rfl rfl rfl

/-- C5: when MakeTaskCollection is called with stage 1 it creates, for every
block, the container dUdt and the containers stage_name[1] …
stage_name[nstages-1], each copied from the base container; called with any
stage other than 1 it creates no containers and the blocks pass through
unchanged, so allocation occurs only at stage 1. -/
theorem C5_stage1_allocation (blocks : List MeshBlock) (stage : Nat)
    (stage_name : List String) (integrator : Integrator) (use_scratch : Bool) :
    (stage ≠ 1 →
      (MakeTaskCollection blocks stage stage_name integrator use_scratch).2
        = blocks) ∧
    (stage = 1 →
      ∀ (i : Nat) (pmb : MeshBlock) (f : ContData),
        blocks[i]? = some pmb →
        getContainer pmb.containers baseName = some f →
        getContainer pmb.containers dudtName = none →
        (∀ k, 1 ≤ k → k < integrator.nstages →
          getContainer pmb.containers (stage_name.getD k noName) = none ∧
          stage_name.getD k noName ≠ dudtName) →
        (∀ k l, 1 ≤ k → k < l → l < integrator.nstages →
          stage_name.getD k noName ≠ stage_name.getD l noName) →
        ∃ pmb',
          (MakeTaskCollection blocks stage stage_name integrator use_scratch).2[i]?
            = some pmb' ∧
          getContainer pmb'.containers dudtName = some f ∧
          ∀ k, 1 ≤ k → k < integrator.nstages →
            getContainer pmb'.containers (stage_name.getD k noName) = some f) := by
  constructor
  · intro hs
    have hone : ∀ b, makeStageContainers stage stage_name integrator b = b := by
      intro b
      unfold makeStageContainers
      rw [if_neg hs]
    show blocks.map (makeStageContainers stage stage_name integrator) = blocks
    induction blocks with
    | nil => rfl
    | cons b bs ih => simp only [List.map_cons, hone b, ih]
  · intro hs i pmb f hb hbase hdudt hfresh hdist
    subst hs
    have hmap :
        (MakeTaskCollection blocks 1 stage_name integrator use_scratch).2[i]?
          = some (makeStageContainers 1 stage_name integrator pmb) := by
      show (blocks.map (makeStageContainers 1 stage_name integrator))[i]? = _
      rw [List.getElem?_map, hb]
      rfl
    have hform : makeStageContainers 1 stage_name integrator pmb =
        MeshBlock.mk (((List.range' 1 (integrator.nstages - 1)).map
            (fun k => stage_name.getD k noName)).foldl
          (fun a n => addContainer a n f)
          (addContainer pmb.containers dudtName f)) := by
      unfold makeStageContainers
      rw [if_pos rfl, hbase]
      simp only [Option.getD_some]
      rw [List.foldl_map]
    rw [hform] at hmap
    -- range bounds of the created stage names
    have hLmem : ∀ n ∈ (List.range' 1 (integrator.nstages - 1)).map
        (fun k => stage_name.getD k noName),
        ∃ k, 1 ≤ k ∧ k < integrator.nstages ∧ n = stage_name.getD k noName := by
      intro n hn
      obtain ⟨k, hk, rfl⟩ := List.mem_map.mp hn
      obtain ⟨j, hj, rfl⟩ := List.mem_range'.mp hk
      exact ⟨1 + 1 * j, by omega, by omega, rfl⟩
    have hLfresh : ∀ n ∈ (List.range' 1 (integrator.nstages - 1)).map
        (fun k => stage_name.getD k noName),
        getContainer (addContainer pmb.containers dudtName f) n = none := by
      intro n hn
      obtain ⟨k, h1, h2, rfl⟩ := hLmem n hn
      obtain ⟨hnone, hne⟩ := hfresh k h1 h2
      rw [getContainer_add_other hne]
      exact hnone
    have hLnodup : ((List.range' 1 (integrator.nstages - 1)).map
        (fun k => stage_name.getD k noName)).Nodup := by
      apply List.Nodup.map_on ?_ (List.nodup_range' 1 (integrator.nstages - 1))
      intro x hx y hy hxy
      obtain ⟨jx, hjx, rfl⟩ := List.mem_range'.mp hx
      obtain ⟨jy, hjy, rfl⟩ := List.mem_range'.mp hy
      rcases Nat.lt_trichotomy (1 + 1 * jx) (1 + 1 * jy) with hlt | heq | hgt
      · exact absurd hxy (hdist (1 + 1 * jx) (1 + 1 * jy) (by omega) hlt (by omega))
      · exact heq
      · exact absurd hxy.symm
          (hdist (1 + 1 * jy) (1 + 1 * jx) (by omega) hgt (by omega))
    refine ⟨_, hmap, ?_, ?_⟩
    · exact getContainer_foldl_add_of_some (getContainer_add_same hdudt)
    · intro k h1 h2
      apply getContainer_foldl_add_mem _ _ hLfresh hLnodup
      exact List.mem_map.mpr
        ⟨k, List.mem_range'.mpr ⟨k - 1, by omega, by omega⟩, rfl⟩

theorem C5_stage1_allocation_witness :
    ∃ pmb',
      (MakeTaskCollection [MeshBlock.mk [(baseName, fun _ => 5)]] 1
          [baseName, stage1Name] (Integrator.mk 2 [1] 1) false).2[0]? = some pmb' ∧
      getContainer pmb'.containers dudtName = some (fun _ => 5) ∧
      ∀ k, 1 ≤ k → k < (Integrator.mk 2 [1] 1).nstages →
        getContainer pmb'.containers (List.getD [baseName, stage1Name] k noName)
          = some (fun _ => 5) :=
  (C5_stage1_allocation [MeshBlock.mk [(baseName, fun _ => 5)]] 1
      [baseName, stage1Name] (Integrator.mk 2 [1] 1) false).2 rfl 0
    (MeshBlock.mk [(baseName, fun _ => 5)]) (fun _ => 5) rfl rfl rfl
    (by
      intro k h1 h2
      have h2' : k < 2 := h2
      have hk : k = 1 := by omega
      subst hk
      exact ⟨rfl, by decide⟩)
    (by
      intro k l h1 h2 h3
      have h3' : l < 2 := h3
      exact (by omega : False).elim)

theorem C4_clear_after_start_receiving_witness :
    validTrace (hydroTC [MeshBlock.mk []] 1 [] (Integrator.mk 2 [] 0) false)
      ([TaskRef.mk 0 0 0, TaskRef.mk 0 0 1, TaskRef.mk 1 0 0, TaskRef.mk 1 0 1,
        TaskRef.mk 1 0 2, TaskRef.mk 1 0 3, TaskRef.mk 1 0 4]
        ++ TaskRef.mk 2 0 0 :: []) = true ∧
    (getTask (hydroTC [MeshBlock.mk []] 1 [] (Integrator.mk 2 [] 0) false)
        (TaskRef.mk 2 0 0) =
      some (GraphTask.mk none (TaskFun.clearBoundary noName allScope)) ∧
    getTask (hydroTC [MeshBlock.mk []] 1 [] (Integrator.mk 2 [] 0) false)
        (TaskRef.mk 0 0 0) =
      some (GraphTask.mk none (TaskFun.startReceiving noName allScope)) ∧
    TaskRef.mk 0 0 0 ∈
      [TaskRef.mk 0 0 0, TaskRef.mk 0 0 1, TaskRef.mk 1 0 0, TaskRef.mk 1 0 1,
       TaskRef.mk 1 0 2, TaskRef.mk 1 0 3, TaskRef.mk 1 0 4]) :=
  ⟨by decide,
   C4_clear_after_start_receiving [MeshBlock.mk []] 1 [] (Integrator.mk 2 [] 0) false
     0 (by decide)
     [TaskRef.mk 0 0 0, TaskRef.mk 0 0 1, TaskRef.mk 1 0 0, TaskRef.mk 1 0 1,
      TaskRef.mk 1 0 2, TaskRef.mk 1 0 3, TaskRef.mk 1 0 4] []
     (by decide)⟩
